import Mathlib

/-!
Verification of the core of the Hyperspeedcube 4D Rubik's cube engine.

The definitions below are a shallow embedding of `src/puzzle/rubiks_4d.rs`
(orientation algebra, topology generation, twist engine) and of
`src/controller.rs` (animation/history controller).  Machine integers (`u8`,
`u32`) are modelled as `Nat`; the few places where the generic puzzle
plumbing (`LayerMask`, the generic `Twist` struct, `pieces_affected_by_twist`,
`all_layers`) is not part of the sources are modelled from the specification
and marked as such in their doc comments.
-/

namespace HSC

set_option maxRecDepth 100000

/-- Sign of a face along its axis.  The `Sign` consumed by `rubiks_4d.rs`
(re-exported by the missing `puzzle` module) is matched exhaustively with the
two arms `Pos` and `Neg`, so it is a two-variant enum. -/
inductive Sign where
  | Pos : Sign
  | Neg : Sign
deriving DecidableEq, Repr

/-- 4-dimensional axis (`enum Axis` in `rubiks_4d.rs`): X = 0, Y = 1, Z = 2, W = 3. -/
inductive Axis where
  | X : Axis
  | Y : Axis
  | Z : Axis
  | W : Axis
deriving DecidableEq, Repr, Fintype

/-- Numeric value of an axis, matching the Rust discriminants. -/
def Axis.toNat : Axis → Nat
  | .X => 0
  | .Y => 1
  | .Z => 2
  | .W => 3

/-- The eight face labels of the 4D cube (`enum FaceEnum`), with the Rust
`repr(u8)` discriminants R=0, L=1, U=2, D=3, F=4, B=5, O=6, I=7. -/
inductive FaceEnum where
  | R : FaceEnum
  | L : FaceEnum
  | U : FaceEnum
  | D : FaceEnum
  | F : FaceEnum
  | B : FaceEnum
  | O : FaceEnum
  | I : FaceEnum
deriving DecidableEq, Repr, Fintype

/-- Discriminant of a face (`FaceEnum as u8`). -/
def FaceEnum.toNat : FaceEnum → Nat
  | .R => 0
  | .L => 1
  | .U => 2
  | .D => 3
  | .F => 4
  | .B => 5
  | .O => 6
  | .I => 7

/-- Conversion from a `u8` back to a face; `num_enum`'s `FromPrimitive`
with `#[num_enum(default)]` on `R` sends out-of-range values to `R`. -/
def FaceEnum.fromNat : Nat → FaceEnum
  | 0 => .R
  | 1 => .L
  | 2 => .U
  | 3 => .D
  | 4 => .F
  | 5 => .B
  | 6 => .O
  | 7 => .I
  | _ => .R

/-- Axis of a face (`FaceEnum::axis`). -/
def FaceEnum.axis : FaceEnum → Axis
  | .R | .L => .X
  | .U | .D => .Y
  | .F | .B => .Z
  | .O | .I => .W

/-- Sign of a face (`FaceEnum::sign`). -/
def FaceEnum.sign : FaceEnum → Sign
  | .R | .U | .F | .O => .Pos
  | .L | .D | .B | .I => .Neg

/-- Opposite face (`FaceEnum::opposite`). -/
def FaceEnum.opposite : FaceEnum → FaceEnum
  | .R => .L
  | .L => .R
  | .U => .D
  | .D => .U
  | .F => .B
  | .B => .F
  | .O => .I
  | .I => .O

/-- Basis faces of a face (`FaceEnum::basis_faces`): the faces acting as the
local x, y, z axes of the 3D cell shared by all stickers of that face. -/
def FaceEnum.basis_faces (f : FaceEnum) : FaceEnum × FaceEnum × FaceEnum :=
  let w : FaceEnum := match f.sign with
    | .Pos => .O
    | .Neg => .I
  ( if f.axis = Axis.X then w else .R
  , if f.axis = Axis.Y then w else .U
  , if f.axis = Axis.Z then w else .F )

/-- Named twist directions (`enum TwistDirectionEnum`), `repr(u8)`
discriminants 0..31 in declaration order. -/
inductive TwistDirectionEnum where
  | R | L | U | D | F | B
  | R2 | L2 | U2 | D2 | F2 | B2
  | UF | DB | UR | DL | FR | BL | DF | UB | UL | DR | BR | FL
  | UFR | DBL | UFL | DBR | DFR | UBL | UBR | DFL
deriving DecidableEq, Repr, Fintype

/-- Discriminant of a twist direction (`TwistDirectionEnum as u8`). -/
def TwistDirectionEnum.toNat : TwistDirectionEnum → Nat
  | .R => 0 | .L => 1 | .U => 2 | .D => 3 | .F => 4 | .B => 5
  | .R2 => 6 | .L2 => 7 | .U2 => 8 | .D2 => 9 | .F2 => 10 | .B2 => 11
  | .UF => 12 | .DB => 13 | .UR => 14 | .DL => 15 | .FR => 16 | .BL => 17
  | .DF => 18 | .UB => 19 | .UL => 20 | .DR => 21 | .BR => 22 | .FL => 23
  | .UFR => 24 | .DBL => 25 | .UFL => 26 | .DBR => 27 | .DFR => 28
  | .UBL => 29 | .UBR => 30 | .DFL => 31

/-- Conversion from a `u8` back to a twist direction; `num_enum` default is `R`. -/
def TwistDirectionEnum.fromNat : Nat → TwistDirectionEnum
  | 0 => .R | 1 => .L | 2 => .U | 3 => .D | 4 => .F | 5 => .B
  | 6 => .R2 | 7 => .L2 | 8 => .U2 | 9 => .D2 | 10 => .F2 | 11 => .B2
  | 12 => .UF | 13 => .DB | 14 => .UR | 15 => .DL | 16 => .FR | 17 => .BL
  | 18 => .DF | 19 => .UB | 20 => .UL | 21 => .DR | 22 => .BR | 23 => .FL
  | 24 => .UFR | 25 => .DBL | 26 => .UFL | 27 => .DBR | 28 => .DFR
  | 29 => .UBL | 30 => .UBR | 31 => .DFL
  | _ => .R

/-- Symbol string of a twist direction (`TwistDirectionEnum::symbol`). -/
def TwistDirectionEnum.symbol : TwistDirectionEnum → String
  | .R => "x"
  | .L => "x'"
  | .U => "y"
  | .D => "y'"
  | .F => "z"
  | .B => "z'"
  | .R2 => "x2"
  | .L2 => "x2'"
  | .U2 => "y2"
  | .D2 => "y2'"
  | .F2 => "z2"
  | .B2 => "z2'"
  | .UF => "xy2"
  | .DB => "xy2'"
  | .UR => "zx2"
  | .DL => "zx2'"
  | .FR => "yz2"
  | .BL => "yz2'"
  | .DF => "xz2"
  | .UB => "xz2'"
  | .UL => "zy2"
  | .DR => "zy2'"
  | .BR => "yx2"
  | .FL => "yx2'"
  | .UFR => "xy"
  | .DBL => "y'x'"
  | .UFL => "zy"
  | .DBR => "xy'"
  | .DFR => "xz"
  | .UBL => "yz'"
  | .UBR => "yx"
  | .DFL => "zx'"

/-- Rotation period of a twist direction (`TwistDirectionEnum::period`):
4 for 90-degree face twists, 2 for 180-degree face and edge twists,
3 for 120-degree corner twists. -/
def TwistDirectionEnum.period : TwistDirectionEnum → Nat
  | .R | .L | .U | .D | .F | .B => 4
  | .R2 | .L2 | .U2 | .D2 | .F2 | .B2 => 2
  | .UF | .DB | .UR | .DL | .FR | .BL | .DF | .UB | .UL | .DR | .BR | .FL => 2
  | .UFR | .DBL | .UFL | .DBR | .DFR | .UBL | .UBR | .DFL => 3

/-- Reverse of a twist direction (`TwistDirectionEnum::rev`):
`Self::from(self as u8 ^ 1)`. -/
def TwistDirectionEnum.rev (d : TwistDirectionEnum) : TwistDirectionEnum :=
  TwistDirectionEnum.fromNat (d.toNat ^^^ 1)

/-- Orientation state of a single piece (`struct PieceState([FaceEnum; 4])`):
the facing directions of the X+, Y+, Z+, and W+ stickers, indexed by axis. -/
structure PieceState where
  atX : FaceEnum
  atY : FaceEnum
  atZ : FaceEnum
  atW : FaceEnum
deriving DecidableEq, Repr

/-- Slot lookup, `piece_state[axis]`. -/
def PieceState.get (s : PieceState) : Axis → FaceEnum
  | .X => s.atX
  | .Y => s.atY
  | .Z => s.atZ
  | .W => s.atW

/-- Default orientation (`impl Default for PieceState`): `[R, U, F, O]`. -/
def PieceState.init : PieceState := ⟨.R, .U, .F, .O⟩

/-- Pointwise application of a face transformation to all four slots; the
loops in `PieceState::rotate` and `PieceState::mirror` apply the same
per-face transformation to each entry of the array. -/
def PieceState.map (g : FaceEnum → FaceEnum) (s : PieceState) : PieceState :=
  ⟨g s.atX, g s.atY, g s.atZ, g s.atW⟩

/-- Loop body of `PieceState::rotate`: swap the two axes in a face label
(keeping sign) via the bit trick `face ^ ((from ^ to) << 1)`. -/
def rotateFace (fromAx toAx : Axis) (face : FaceEnum) : FaceEnum :=
  let diff := (fromAx.toNat ^^^ toAx.toNat) <<< 1
  if face.axis = fromAx ∨ face.axis = toAx then FaceEnum.fromNat (face.toNat ^^^ diff)
  else face

/-- Loop body of `PieceState::mirror`: flip the sign of a label on one axis. -/
def mirrorFace (axis : Axis) (face : FaceEnum) : FaceEnum :=
  if face.axis = axis then face.opposite else face

/-- Sign flip of all slots on one axis (`PieceState::mirror`). -/
def PieceState.mirror (s : PieceState) (axis : Axis) : PieceState :=
  s.map (mirrorFace axis)

/-- Primitive 90-degree rotation generator (`PieceState::rotate`): swap the
two axes in every slot on either axis, then flip the sign of the `from` axis. -/
def PieceState.rotate (s : PieceState) (fromAx toAx : Axis) : PieceState :=
  (s.map (rotateFace fromAx toAx)).mirror fromAx

/-- Face-relative rotation generator (`PieceState::rotate_by_faces`): negate
the rotation direction when the two faces have opposite signs. -/
def PieceState.rotate_by_faces (s : PieceState) (a b : FaceEnum) : PieceState :=
  if a.sign = b.sign then s.rotate a.axis b.axis else s.rotate b.axis a.axis

/-- Per-slot action of `rotate_by_faces`. -/
def rbfFace (a b : FaceEnum) (x : FaceEnum) : FaceEnum :=
  if a.sign = b.sign then mirrorFace a.axis (rotateFace a.axis b.axis x)
  else mirrorFace b.axis (rotateFace b.axis a.axis x)

theorem PieceState.map_map (g h : FaceEnum → FaceEnum) (s : PieceState) :
    (s.map g).map h = s.map (fun x => h (g x)) := rfl

theorem PieceState.map_congr {g h : FaceEnum → FaceEnum} (s : PieceState)
    (hgh : ∀ x, g x = h x) : s.map g = s.map h := by
  cases s
  simp only [PieceState.map, hgh]

theorem PieceState.map_id (s : PieceState) : s.map (fun x => x) = s := rfl

theorem rotate_by_faces_eq_map (s : PieceState) (a b : FaceEnum) :
    s.rotate_by_faces a b = s.map (rbfFace a b) := by
  unfold PieceState.rotate_by_faces rbfFace PieceState.rotate PieceState.mirror
  split
  · rw [PieceState.map_map]
  · rw [PieceState.map_map]

/-- Character constant for the doubling modifier in twist symbols. -/
def twoChar : Char := '2'

/-- Character constant for the inversion modifier in twist symbols
(an ASCII apostrophe, code 39). -/
def invChar : Char := Char.ofNat 39

/-- Selector for the generator of one symbol character
(the `match chars.next()` in `PieceState::twist`):
`x` uses `[basis_z, basis_y]`, `y` uses `[basis_x, basis_z]`,
`z` uses `[basis_y, basis_x]`; anything else is skipped. -/
def charPair (b1 b2 b3 : FaceEnum) (c : Char) : Option (FaceEnum × FaceEnum) :=
  if c = 'x' then some (b3, b2)
  else if c = 'y' then some (b1, b3)
  else if c = 'z' then some (b2, b1)
  else none

/-- Consume one expected modifier character from the front of the symbol
stream (`chars.next_if_eq`). -/
def stripOne (c : Char) : List Char → Bool × List Char
  | [] => (false, [])
  | d :: rest => if d = c then (true, rest) else (false, d :: rest)

theorem stripOne_length (c : Char) (l : List Char) :
    (stripOne c l).2.length ≤ l.length := by
  cases l with
  | nil => simp [stripOne]
  | cons d rest =>
    simp only [stripOne]
    split
    · simp
    · simp

/-- Application of one parsed generator (the body of the loop in
`PieceState::twist`): swap the arguments when inverted, apply the
face-relative rotation, and apply it again when doubled. -/
def applyGen (a0 b0 : FaceEnum) (double inverse : Bool) (s : PieceState) : PieceState :=
  let ab := if inverse then (b0, a0) else (a0, b0)
  let s1 := s.rotate_by_faces ab.1 ab.2
  if double then s1.rotate_by_faces ab.1 ab.2 else s1

/-- Per-slot action of `applyGen`. -/
def applyGenFace (a0 b0 : FaceEnum) (double inverse : Bool) (x : FaceEnum) : FaceEnum :=
  let ab := if inverse then (b0, a0) else (a0, b0)
  let x1 := rbfFace ab.1 ab.2 x
  if double then rbfFace ab.1 ab.2 x1 else x1

theorem applyGen_eq_map (a0 b0 : FaceEnum) (double inverse : Bool) (s : PieceState) :
    applyGen a0 b0 double inverse s = s.map (applyGenFace a0 b0 double inverse) := by
  unfold applyGen applyGenFace
  cases double <;> cases inverse <;>
    simp only [Bool.false_eq_true, if_false, if_true, rotate_by_faces_eq_map,
      PieceState.map_map]

/-- Symbol-sequence interpreter of `PieceState::twist`: repeatedly read one
generator character, the optional `2` modifier, then the optional inversion
modifier, and apply the corresponding generator(s).  The Rust loop consumes
at least one character per iteration, so running it with `cs.length` units of
fuel (as `twistLoop` below does) reproduces it exactly while keeping the
recursion structural. -/
def twistLoopF (b1 b2 b3 : FaceEnum) : Nat → List Char → PieceState → PieceState
  | 0, _, s => s
  | _ + 1, [], s => s
  | fuel + 1, c :: rest, s =>
    match charPair b1 b2 b3 c with
    | none => twistLoopF b1 b2 b3 fuel rest s
    | some (a0, b0) =>
      twistLoopF b1 b2 b3 fuel (stripOne invChar (stripOne twoChar rest).2).2
        (applyGen a0 b0 (stripOne twoChar rest).1
          (stripOne invChar (stripOne twoChar rest).2).1 s)

/-- The loop of `PieceState::twist` over a character list. -/
def twistLoop (b1 b2 b3 : FaceEnum) (cs : List Char) (s : PieceState) : PieceState :=
  twistLoopF b1 b2 b3 cs.length cs s

/-- Per-slot version of `twistLoopF`. -/
def twistLoopFaceF (b1 b2 b3 : FaceEnum) : Nat → List Char → FaceEnum → FaceEnum
  | 0, _, x => x
  | _ + 1, [], x => x
  | fuel + 1, c :: rest, x =>
    match charPair b1 b2 b3 c with
    | none => twistLoopFaceF b1 b2 b3 fuel rest x
    | some (a0, b0) =>
      twistLoopFaceF b1 b2 b3 fuel (stripOne invChar (stripOne twoChar rest).2).2
        (applyGenFace a0 b0 (stripOne twoChar rest).1
          (stripOne invChar (stripOne twoChar rest).2).1 x)

/-- Per-slot version of `twistLoop`. -/
def twistLoopFace (b1 b2 b3 : FaceEnum) (cs : List Char) (x : FaceEnum) : FaceEnum :=
  twistLoopFaceF b1 b2 b3 cs.length cs x

theorem twistLoopF_eq_map (b1 b2 b3 : FaceEnum) :
    ∀ (fuel : Nat) (cs : List Char) (s : PieceState),
      twistLoopF b1 b2 b3 fuel cs s = s.map (twistLoopFaceF b1 b2 b3 fuel cs) := by
  intro fuel
  induction fuel with
  | zero =>
    intro cs s
    cases s
    simp [twistLoopF, twistLoopFaceF, PieceState.map]
  | succ n ih =>
    intro cs s
    cases cs with
    | nil =>
      cases s
      simp [twistLoopF, twistLoopFaceF, PieceState.map]
    | cons c rest =>
      cases hcp : charPair b1 b2 b3 c with
      | none =>
        cases s with
        | mk p0 p1 p2 p3 =>
          have h := ih rest ⟨p0, p1, p2, p3⟩
          simp only [twistLoopF, twistLoopFaceF, hcp, PieceState.map] at h ⊢
          exact h
      | some p =>
        cases p with
        | mk a0 b0 =>
          cases s with
          | mk p0 p1 p2 p3 =>
            simp only [twistLoopF, twistLoopFaceF, hcp, PieceState.map]
            rw [ih, applyGen_eq_map, PieceState.map_map]
            simp [PieceState.map]

theorem twistLoop_eq_map (b1 b2 b3 : FaceEnum) (cs : List Char) (s : PieceState) :
    twistLoop b1 b2 b3 cs s = s.map (twistLoopFace b1 b2 b3 cs) := by
  unfold twistLoop twistLoopFace
  exact twistLoopF_eq_map b1 b2 b3 cs.length cs s

/-- Twist-direction application to a piece orientation (`PieceState::twist`):
interpret the direction's symbol sequence over the face's basis. -/
def PieceState.twist (s : PieceState) (face : FaceEnum) (direction : TwistDirectionEnum) : PieceState :=
  twistLoop face.basis_faces.1 face.basis_faces.2.1 face.basis_faces.2.2
    direction.symbol.toList s

/-- Per-slot action of `PieceState::twist`. -/
def twistFaceAction (face : FaceEnum) (direction : TwistDirectionEnum) (x : FaceEnum) : FaceEnum :=
  twistLoopFace face.basis_faces.1 face.basis_faces.2.1 face.basis_faces.2.2
    direction.symbol.toList x

theorem twist_eq_map (s : PieceState) (face : FaceEnum) (direction : TwistDirectionEnum) :
    s.twist face direction = s.map (twistFaceAction face direction) :=
  twistLoop_eq_map _ _ _ _ s

/-- Per-slot action of `PieceState::rotate`. -/
def rotSlot (fromAx toAx : Axis) (x : FaceEnum) : FaceEnum :=
  mirrorFace fromAx (rotateFace fromAx toAx x)

theorem rotate_eq_map (s : PieceState) (fromAx toAx : Axis) :
    s.rotate fromAx toAx = s.map (rotSlot fromAx toAx) :=
  PieceState.map_map _ _ s

theorem direction_rev_rev : ∀ d : TwistDirectionEnum, d.rev.rev = d := by decide

theorem twistFaceAction_rev_cancel :
    ∀ (f : FaceEnum) (d : TwistDirectionEnum) (x : FaceEnum),
      twistFaceAction f d.rev (twistFaceAction f d x) = x := by decide

theorem twistFaceAction_axis_split :
    ∀ (f : FaceEnum) (d : TwistDirectionEnum) (x : FaceEnum),
      (x.axis = f.axis ∧ twistFaceAction f d x = x) ∨
      (x.axis ≠ f.axis ∧ (twistFaceAction f d x).axis ≠ f.axis) := by decide

/-- Canonical positive face on an axis, used to tabulate the induced action
of a twist on axes. -/
def posFace : Axis → FaceEnum
  | .X => .R
  | .Y => .U
  | .Z => .F
  | .W => .O

/-- Induced action of a twist's per-slot map on underlying axes. -/
def axisAct (f : FaceEnum) (d : TwistDirectionEnum) (a : Axis) : Axis :=
  (twistFaceAction f d (posFace a)).axis

theorem twistFaceAction_axis_act :
    ∀ (f : FaceEnum) (d : TwistDirectionEnum) (x : FaceEnum),
      (twistFaceAction f d x).axis = axisAct f d x.axis := by decide

theorem axisAct_inj :
    ∀ (f : FaceEnum) (d : TwistDirectionEnum) (a b : Axis),
      axisAct f d a = axisAct f d b → a = b := by decide

theorem twistFaceAction_axis_inj (f : FaceEnum) (d : TwistDirectionEnum)
    (x y : FaceEnum)
    (h : (twistFaceAction f d x).axis = (twistFaceAction f d y).axis) :
    x.axis = y.axis := by
  apply axisAct_inj f d
  rw [← twistFaceAction_axis_act, ← twistFaceAction_axis_act, h]

theorem rotSlot_four :
    ∀ (a b : Axis) (x : FaceEnum),
      a ≠ b → rotSlot a b (rotSlot a b (rotSlot a b (rotSlot a b x))) = x := by decide

theorem twistFaceAction_corner_three :
    ∀ (f : FaceEnum) (d : TwistDirectionEnum) (x : FaceEnum),
      d.period = 3 →
      twistFaceAction f d (twistFaceAction f d (twistFaceAction f d x)) = x := by decide

theorem PieceState.map_get (g : FaceEnum → FaceEnum) (s : PieceState) (i : Axis) :
    (s.map g).get i = g (s.get i) := by
  cases i <;> rfl

theorem PieceState.twist_then_rev (ps : PieceState) (f : FaceEnum)
    (d : TwistDirectionEnum) : (ps.twist f d).twist f d.rev = ps := by
  rw [twist_eq_map, twist_eq_map, PieceState.map_map]
  cases ps
  simp [PieceState.map, twistFaceAction_rev_cancel]

/-- Lattice coordinate quadruple of a piece (`[u8; 4]` in the sources),
indexed by axis. -/
structure Loc4 where
  cx : Nat
  cy : Nat
  cz : Nat
  cw : Nat
deriving DecidableEq, Repr

/-- Coordinate lookup, `location[axis]`. -/
def Loc4.get (l : Loc4) : Axis → Nat
  | .X => l.cx
  | .Y => l.cy
  | .Z => l.cz
  | .W => l.cw

/-- Coordinate update, `location[axis] = v`. -/
def Loc4.set (l : Loc4) (a : Axis) (v : Nat) : Loc4 :=
  match a with
  | .X => { l with cx := v }
  | .Y => { l with cy := v }
  | .Z => { l with cz := v }
  | .W => { l with cw := v }

theorem Loc4.get_set (l : Loc4) (a b : Axis) (v : Nat) :
    (l.set a v).get b = if a = b then v else l.get b := by
  cases l
  cases a <;> cases b <;> simp [Loc4.set, Loc4.get]

/-- Loop body of `Rubiks4D::piece_location`: the slot for axis `i` holds the
face now occupying physical slot `i`; write the piece's initial coordinate
along `i` into the returned location at that face's axis, flipping it to
`layer_count - 1 - coord` when the sign is negative. -/
def locStep (layer_count : Nat) (ps : PieceState) (initial : Loc4) (ret : Loc4)
    (i : Axis) : Loc4 :=
  let face := ps.get i
  let v := initial.get i
  ret.set face.axis (if face.sign = Sign.Neg then layer_count - 1 - v else v)

/-- Current lattice location of a piece (`Rubiks4D::piece_location`): invert
the orientation state against the stored initial location, iterating over the
axes X, Y, Z, W in order starting from a zeroed array. -/
def piece_location (layer_count : Nat) (ps : PieceState) (initial : Loc4) : Loc4 :=
  locStep layer_count ps initial
    (locStep layer_count ps initial
      (locStep layer_count ps initial
        (locStep layer_count ps initial ⟨0, 0, 0, 0⟩ Axis.X) Axis.Y) Axis.Z) Axis.W

/-- Layer number of a piece relative to a twist axis
(`Rubiks4D::layer_from_twist_axis`): the absolute difference between the
boundary coordinate assigned to the face's sign (`layer_count - 1` for
positive, `0` for negative) and the piece's current coordinate along the
face's axis. -/
def layerOf (layer_count : Nat) (ps : PieceState) (initial : Loc4)
    (face : FaceEnum) : Nat :=
  Nat.dist
    (match face.sign with
      | .Pos => layer_count - 1
      | .Neg => 0)
    ((piece_location layer_count ps initial).get face.axis)

theorem locStep_twist_congr (L : Nat) (ps : PieceState) (init : Loc4)
    (f : FaceEnum) (d : TwistDirectionEnum) (i : Axis) (ret ret' : Loc4)
    (hr : ret.get f.axis = ret'.get f.axis) :
    (locStep L (ps.twist f d) init ret i).get f.axis
      = (locStep L ps init ret' i).get f.axis := by
  unfold locStep
  rw [twist_eq_map, PieceState.map_get, Loc4.get_set, Loc4.get_set]
  rcases twistFaceAction_axis_split f d (ps.get i) with ⟨h1, h2⟩ | ⟨h1, h2⟩
  · rw [h2]
    by_cases hax : (ps.get i).axis = f.axis
    · rw [if_pos hax, if_pos hax]
    · rw [if_neg hax, if_neg hax]
      exact hr
  · rw [if_neg h2, if_neg h1]
    exact hr

theorem piece_location_twist_get (L : Nat) (ps : PieceState) (init : Loc4)
    (f : FaceEnum) (d : TwistDirectionEnum) :
    (piece_location L (ps.twist f d) init).get f.axis
      = (piece_location L ps init).get f.axis := by
  unfold piece_location
  apply locStep_twist_congr
  apply locStep_twist_congr
  apply locStep_twist_congr
  apply locStep_twist_congr
  rfl

theorem layerOf_twist (L : Nat) (ps : PieceState) (init : Loc4) (f : FaceEnum)
    (d : TwistDirectionEnum) :
    layerOf L (ps.twist f d) init f = layerOf L ps init f := by
  unfold layerOf
  rw [piece_location_twist_get]

/-- Twist value (the `Twist` struct of the missing generic puzzle module, as
constructed in `rubiks_4d.rs`): a twist axis (identified with its face), a
named direction, and a layer mask.  Modelled from the spec: the layer mask is
a bitset over `[0, layer_count)` (modelled as the `Nat` whose bits are the
mask) and a twist also carries its originating puzzle type, which for this
family is determined by the layer count (`PuzzleTypeEnum::Rubiks4D
{ layer_count }`), stored here in the field `ty`. -/
structure Twist where
  ty : Nat
  axis : FaceEnum
  direction : TwistDirectionEnum
  layers : Nat
deriving DecidableEq, Repr

/-- Modelled from the spec: the reverse of a twist keeps the axis and layer
mask and reverses the direction (`reverse_twist_direction`, i.e.
`TwistDirectionEnum::rev`). -/
def Twist.rev (t : Twist) : Twist :=
  { t with direction := t.direction.rev }

theorem Twist.rev_rev (t : Twist) : t.rev.rev = t := by
  cases t
  simp [Twist.rev, direction_rev_rev]

/-- Per-piece action of `Rubiks4D::twist`.  Modelled from the spec:
`pieces_affected_by_twist` yields exactly the pieces whose layer number
relative to the twist axis is a member of the twist's layer mask; each such
piece's orientation is updated by `PieceState::twist`. -/
def pieceTwistStep (L : Nat) (t : Twist) (ps : PieceState) (loc : Loc4) : PieceState :=
  if t.layers.testBit (layerOf L ps loc t.axis) then ps.twist t.axis t.direction
  else ps

/-- Application of a twist to the whole list of piece states, zipping each
state with its initial location (out-of-range pieces never occur on states
built by `Rubiks4D::new`, which allocates one state per described piece). -/
def twistPieces (L : Nat) (t : Twist) : List PieceState → List Loc4 → List PieceState
  | [], _ => []
  | ps :: ss, [] => pieceTwistStep L t ps ⟨0, 0, 0, 0⟩ :: twistPieces L t ss []
  | ps :: ss, loc :: ls => pieceTwistStep L t ps loc :: twistPieces L t ss ls

theorem pieceTwistStep_rev (L : Nat) (t : Twist) (ps : PieceState) (loc : Loc4) :
    pieceTwistStep L t.rev (pieceTwistStep L t ps loc) loc = ps := by
  unfold pieceTwistStep
  by_cases hb : t.layers.testBit (layerOf L ps loc t.axis)
  · rw [if_pos hb]
    have haxis : t.rev.axis = t.axis := rfl
    have hlayers : t.rev.layers = t.layers := rfl
    rw [haxis, hlayers, layerOf_twist, if_pos hb]
    exact PieceState.twist_then_rev ps t.axis t.direction
  · rw [if_neg hb]
    rw [show t.rev.axis = t.axis from rfl, show t.rev.layers = t.layers from rfl,
      if_neg hb]

theorem twistPieces_rev (L : Nat) (t : Twist) :
    ∀ (ss : List PieceState) (ls : List Loc4),
      twistPieces L t.rev (twistPieces L t ss ls) ls = ss := by
  intro ss
  induction ss with
  | nil => intro ls; cases ls <;> rfl
  | cons ps ss ih =>
    intro ls
    cases ls with
    | nil => simp [twistPieces, pieceTwistStep_rev, ih]
    | cons loc ls => simp [twistPieces, pieceTwistStep_rev, ih]

/-- Sticker record (`StickerInfo`): owning piece and original color face. -/
structure StickerInfo where
  piece : Nat
  color : FaceEnum
deriving DecidableEq, Repr

/-- Piece record (`PieceInfo`): the indices of the piece's stickers. -/
structure PieceInfo where
  stickers : List Nat
deriving DecidableEq, Repr

/-- Immutable puzzle description (`Rubiks4DDescription`), restricted to the
fields the verified core reads; the display-only fields (`name`, `faces`,
`twist_axes`, `twist_directions`) are omitted. -/
structure Rubiks4DDescription where
  layer_count : Nat
  pieces : List PieceInfo
  stickers : List StickerInfo
  piece_locations : List Loc4
deriving DecidableEq, Repr

/-- Puzzle state (`struct Rubiks4D`): a description and one orientation state
per piece. -/
structure Rubiks4D where
  desc : Rubiks4DDescription
  piece_states : List PieceState
deriving DecidableEq, Repr

/-- Puzzle type of a state (`PuzzleTypeEnum::Rubiks4D { layer_count }`,
identified with its layer count). -/
def Rubiks4D.ty (st : Rubiks4D) : Nat := st.desc.layer_count

/-- Application of a twist to a puzzle state (`Rubiks4D::twist`); the source
returns `Ok(())` unconditionally, so the result is modelled as the new state. -/
def Rubiks4D.twist (st : Rubiks4D) (t : Twist) : Rubiks4D :=
  { st with
    piece_states := twistPieces st.desc.layer_count t st.piece_states st.desc.piece_locations }

/-- Layer number of a piece relative to a twist axis
(`Rubiks4D::layer_from_twist_axis`). -/
def Rubiks4D.layer_from_twist_axis (st : Rubiks4D) (twist_axis : FaceEnum)
    (piece : Nat) : Nat :=
  layerOf st.desc.layer_count (st.piece_states.getD piece PieceState.init)
    (st.desc.piece_locations.getD piece ⟨0, 0, 0, 0⟩) twist_axis

theorem Rubiks4D.state_twist_then_rev (st : Rubiks4D) (t : Twist) :
    (st.twist t).twist t.rev = st := by
  cases st
  simp [Rubiks4D.twist, twistPieces_rev]

/-- Accumulator of `puzzle_description`'s generation loop: the piece, sticker
and location vectors (stored in reverse push order) together with their
lengths (`pieces.len()` and `stickers.len()`, which the Rust code reads in
constant time). -/
structure GenState where
  pieces : List PieceInfo
  stickers : List StickerInfo
  piece_locations : List Loc4
  npieces : Nat
  nstickers : Nat
deriving DecidableEq, Repr

/-- The `push_sticker_if` closure: append a sticker index to the piece under
construction and record the sticker's owning piece and color. -/
def pushStickerIf (condition : Bool) (face : FaceEnum) (piece : Nat)
    (piece_stickers : List Nat) (stickers : List StickerInfo) (nstickers : Nat) :
    List Nat × List StickerInfo × Nat :=
  if condition then
    (piece_stickers ++ [nstickers], ⟨piece, face⟩ :: stickers, nstickers + 1)
  else (piece_stickers, stickers, nstickers)

/-- Body of the innermost loop of `puzzle_description`: materialize the piece
at `(x, y, z, w)` with one sticker per extreme coordinate, in the fixed order
R, L, U, D, F, B, O, I. -/
def genPiece (L : Nat) (g : GenState) (x y z w : Nat) : GenState :=
  let piece := g.npieces
  let a1 := pushStickerIf (x == L - 1) .R piece [] g.stickers g.nstickers
  let a2 := pushStickerIf (x == 0) .L piece a1.1 a1.2.1 a1.2.2
  let a3 := pushStickerIf (y == L - 1) .U piece a2.1 a2.2.1 a2.2.2
  let a4 := pushStickerIf (y == 0) .D piece a3.1 a3.2.1 a3.2.2
  let a5 := pushStickerIf (z == L - 1) .F piece a4.1 a4.2.1 a4.2.2
  let a6 := pushStickerIf (z == 0) .B piece a5.1 a5.2.1 a5.2.2
  let a7 := pushStickerIf (w == L - 1) .O piece a6.1 a6.2.1 a6.2.2
  let a8 := pushStickerIf (w == 0) .I piece a7.1 a7.2.1 a7.2.2
  { pieces := ⟨a8.1⟩ :: g.pieces
  , stickers := a8.2.1
  , piece_locations := ⟨x, y, z, w⟩ :: g.piece_locations
  , npieces := piece + 1
  , nstickers := a8.2.2 }

/-- Range of the `x` loop: when any of the other three coordinates is extreme
the full range `0..layer_count` is visited, otherwise only the two extreme
values `[0, layer_count - 1]`. -/
def xRange (L : Nat) (y z w : Nat) : List Nat :=
  if (w == 0) || (w == L - 1) || (z == 0) || (z == L - 1)
      || (y == 0) || (y == L - 1)
  then List.range L else [0, L - 1]

/-- Innermost (`x`) loop of `puzzle_description`, with the accumulator
destructured every step (the Rust loop updates its vectors strictly in
place). -/
def genLoopX (L : Nat) (y z w : Nat) : List Nat → GenState → GenState
  | [], g => g
  | x :: xs, ⟨ps, ss, ls, np, ns⟩ =>
    genLoopX L y z w xs (genPiece L ⟨ps, ss, ls, np, ns⟩ x y z w)

/-- The `y` loop of `puzzle_description`. -/
def genLoopY (L : Nat) (z w : Nat) : List Nat → GenState → GenState
  | [], g => g
  | y :: ys, ⟨ps, ss, ls, np, ns⟩ =>
    genLoopY L z w ys (genLoopX L y z w (xRange L y z w) ⟨ps, ss, ls, np, ns⟩)

/-- The `z` loop of `puzzle_description`. -/
def genLoopZ (L : Nat) (w : Nat) : List Nat → GenState → GenState
  | [], g => g
  | z :: zs, ⟨ps, ss, ls, np, ns⟩ =>
    genLoopZ L w zs (genLoopY L z w (List.range L) ⟨ps, ss, ls, np, ns⟩)

/-- The `w` loop of `puzzle_description`. -/
def genLoopW (L : Nat) : List Nat → GenState → GenState
  | [], g => g
  | w :: ws, ⟨ps, ss, ls, np, ns⟩ =>
    genLoopW L ws (genLoopZ L w (List.range L) ⟨ps, ss, ls, np, ns⟩)

/-- Topology generation (`puzzle_description` in `rubiks_4d.rs`): enumerate
the surface lattice points of the hypercube in `w`, `z`, `y`, `x` loop order
and materialize one piece (with its stickers) per point.  The display-only
fields of the description are omitted; the memoization cache only affects
sharing, not the generated value. -/
def puzzle_description (layer_count : Nat) : Rubiks4DDescription :=
  let g := genLoopW layer_count (List.range layer_count) ⟨[], [], [], 0, 0⟩
  { layer_count := layer_count
  , pieces := g.pieces.reverse
  , stickers := g.stickers.reverse
  , piece_locations := g.piece_locations.reverse }

/-- Fresh solved puzzle state (`Rubiks4D::new`): one default orientation per
described piece. -/
def Rubiks4D.new (layer_count : Nat) : Rubiks4D :=
  { desc := puzzle_description layer_count
  , piece_states :=
      List.replicate (puzzle_description layer_count).pieces.length PieceState.init }

theorem genPiece_pieces (L : Nat) (g : GenState) (x y z w : Nat) :
    ∃ pi : PieceInfo, (genPiece L g x y z w).pieces = pi :: g.pieces := ⟨_, rfl⟩

theorem genPiece_locs (L : Nat) (g : GenState) (x y z w : Nat) :
    (genPiece L g x y z w).piece_locations = ⟨x, y, z, w⟩ :: g.piece_locations := rfl

theorem genLoopX_pieces_length (L y z w : Nat) :
    ∀ (xs : List Nat) (g : GenState),
      (genLoopX L y z w xs g).pieces.length = g.pieces.length + xs.length := by
  intro xs
  induction xs with
  | nil => intro g; rw [genLoopX]; rfl
  | cons x xs ih =>
    intro g
    cases g with
    | mk ps ss ls np ns =>
      rw [genLoopX, ih]
      simp [genPiece]
      omega

/-- Number of pieces contributed by one `y` iteration. -/
def yCount (L z w : Nat) : Nat :=
  ((List.range L).map (fun y => (xRange L y z w).length)).sum

/-- Number of pieces contributed by one `z` iteration. -/
def zCount (L w : Nat) : Nat :=
  ((List.range L).map (fun z => yCount L z w)).sum

/-- Total number of pieces generated for a layer count. -/
def wCount (L : Nat) : Nat :=
  ((List.range L).map (fun w => zCount L w)).sum

theorem genLoopY_pieces_length (L z w : Nat) :
    ∀ (ys : List Nat) (g : GenState),
      (genLoopY L z w ys g).pieces.length
        = g.pieces.length + (ys.map (fun y => (xRange L y z w).length)).sum := by
  intro ys
  induction ys with
  | nil => intro g; rw [genLoopY]; simp
  | cons y ys ih =>
    intro g
    cases g with
    | mk ps ss ls np ns =>
      rw [genLoopY, ih, genLoopX_pieces_length]
      simp
      omega

theorem genLoopZ_pieces_length (L w : Nat) :
    ∀ (zs : List Nat) (g : GenState),
      (genLoopZ L w zs g).pieces.length
        = g.pieces.length + (zs.map (fun z => yCount L z w)).sum := by
  intro zs
  induction zs with
  | nil => intro g; rw [genLoopZ]; simp
  | cons z zs ih =>
    intro g
    cases g with
    | mk ps ss ls np ns =>
      rw [genLoopZ, ih, genLoopY_pieces_length]
      simp [yCount]
      omega

theorem genLoopW_pieces_length (L : Nat) :
    ∀ (ws : List Nat) (g : GenState),
      (genLoopW L ws g).pieces.length
        = g.pieces.length + (ws.map (fun w => zCount L w)).sum := by
  intro ws
  induction ws with
  | nil => intro g; rw [genLoopW]; simp
  | cons w ws ih =>
    intro g
    cases g with
    | mk ps ss ls np ns =>
      rw [genLoopW, ih, genLoopZ_pieces_length]
      simp [zCount]
      omega

theorem puzzle_description_pieces_length (n : Nat) :
    (puzzle_description n).pieces.length = wCount n := by
  unfold puzzle_description wCount
  rw [List.length_reverse, genLoopW_pieces_length]
  simp

theorem genLoopX_locs_mem (L y z w : Nat) :
    ∀ (xs : List Nat) (g : GenState) (loc : Loc4),
      loc ∈ (genLoopX L y z w xs g).piece_locations →
      (∃ x ∈ xs, loc = ⟨x, y, z, w⟩) ∨ loc ∈ g.piece_locations := by
  intro xs
  induction xs with
  | nil =>
    intro g loc h
    rw [genLoopX] at h
    exact Or.inr h
  | cons x xs ih =>
    intro g loc h
    cases g with
    | mk ps ss ls np ns =>
      rw [genLoopX] at h
      rcases ih _ loc h with ⟨x', hx', he⟩ | hmem
      · exact Or.inl ⟨x', List.mem_cons_of_mem _ hx', he⟩
      · rw [genPiece_locs] at hmem
        rcases List.mem_cons.mp hmem with he | hmem
        · exact Or.inl ⟨x, List.mem_cons_self _ _, he⟩
        · exact Or.inr hmem

theorem genLoopY_locs_mem (L z w : Nat) :
    ∀ (ys : List Nat) (g : GenState) (loc : Loc4),
      loc ∈ (genLoopY L z w ys g).piece_locations →
      (∃ y ∈ ys, ∃ x ∈ xRange L y z w, loc = ⟨x, y, z, w⟩)
        ∨ loc ∈ g.piece_locations := by
  intro ys
  induction ys with
  | nil =>
    intro g loc h
    rw [genLoopY] at h
    exact Or.inr h
  | cons y ys ih =>
    intro g loc h
    cases g with
    | mk ps ss ls np ns =>
      rw [genLoopY] at h
      rcases ih _ loc h with ⟨y', hy', hrest⟩ | hmem
      · exact Or.inl ⟨y', List.mem_cons_of_mem _ hy', hrest⟩
      · rcases genLoopX_locs_mem L y z w _ _ loc hmem with ⟨x, hx, he⟩ | hmem
        · exact Or.inl ⟨y, List.mem_cons_self _ _, x, hx, he⟩
        · exact Or.inr hmem

theorem genLoopZ_locs_mem (L w : Nat) :
    ∀ (zs : List Nat) (g : GenState) (loc : Loc4),
      loc ∈ (genLoopZ L w zs g).piece_locations →
      (∃ z ∈ zs, ∃ y ∈ List.range L, ∃ x ∈ xRange L y z w, loc = ⟨x, y, z, w⟩)
        ∨ loc ∈ g.piece_locations := by
  intro zs
  induction zs with
  | nil =>
    intro g loc h
    rw [genLoopZ] at h
    exact Or.inr h
  | cons z zs ih =>
    intro g loc h
    cases g with
    | mk ps ss ls np ns =>
      rw [genLoopZ] at h
      rcases ih _ loc h with ⟨z', hz', hrest⟩ | hmem
      · exact Or.inl ⟨z', List.mem_cons_of_mem _ hz', hrest⟩
      · rcases genLoopY_locs_mem L z w _ _ loc hmem with ⟨y, hy, hrest⟩ | hmem
        · exact Or.inl ⟨z, List.mem_cons_self _ _, y, hy, hrest⟩
        · exact Or.inr hmem

theorem genLoopW_locs_mem (L : Nat) :
    ∀ (ws : List Nat) (g : GenState) (loc : Loc4),
      loc ∈ (genLoopW L ws g).piece_locations →
      (∃ w ∈ ws, ∃ z ∈ List.range L, ∃ y ∈ List.range L,
          ∃ x ∈ xRange L y z w, loc = ⟨x, y, z, w⟩)
        ∨ loc ∈ g.piece_locations := by
  intro ws
  induction ws with
  | nil =>
    intro g loc h
    rw [genLoopW] at h
    exact Or.inr h
  | cons w ws ih =>
    intro g loc h
    cases g with
    | mk ps ss ls np ns =>
      rw [genLoopW] at h
      rcases ih _ loc h with ⟨w', hw', hrest⟩ | hmem
      · exact Or.inl ⟨w', List.mem_cons_of_mem _ hw', hrest⟩
      · rcases genLoopZ_locs_mem L w _ _ loc hmem with ⟨z, hz, hrest⟩ | hmem
        · exact Or.inl ⟨w, List.mem_cons_self _ _, z, hz, hrest⟩
        · exact Or.inr hmem

theorem mem_xRange_lt (L y z w x : Nat) (hL : 1 ≤ L) (hx : x ∈ xRange L y z w) :
    x < L := by
  unfold xRange at hx
  split at hx
  · exact List.mem_range.mp hx
  · rcases List.mem_cons.mp hx with he | hx
    · omega
    · rcases List.mem_cons.mp hx with he | hx
      · omega
      · simp at hx

theorem puzzle_description_locs_lt (n : Nat) (h1 : 1 ≤ n) :
    ∀ loc ∈ (puzzle_description n).piece_locations, ∀ a : Axis, loc.get a < n := by
  intro loc hmem a
  unfold puzzle_description at hmem
  rw [List.mem_reverse] at hmem
  rcases genLoopW_locs_mem n _ _ loc hmem with
    ⟨w, hw, z, hz, y, hy, x, hx, he⟩ | hmem
  · subst he
    have hxl := mem_xRange_lt n y z w x h1 hx
    have hyl := List.mem_range.mp hy
    have hzl := List.mem_range.mp hz
    have hwl := List.mem_range.mp hw
    cases a <;> simpa [Loc4.get]
  · simp at hmem


theorem piece_location_get_lt (L : Nat) (hL : 1 ≤ L) (ps : PieceState)
    (init : Loc4) (hinit : ∀ a, init.get a < L) (a : Axis) :
    (piece_location L ps init).get a < L := by
  have h0 : (⟨0, 0, 0, 0⟩ : Loc4).get a = 0 := by cases a <;> rfl
  have hX := hinit Axis.X
  have hY := hinit Axis.Y
  have hZ := hinit Axis.Z
  have hW := hinit Axis.W
  unfold piece_location locStep
  simp only [Loc4.get_set, h0]
  split_ifs <;> omega

theorem layerOf_lt (L : Nat) (hL : 1 ≤ L) (ps : PieceState) (init : Loc4)
    (hinit : ∀ a, init.get a < L) (face : FaceEnum) :
    layerOf L ps init face < L := by
  unfold layerOf
  have h := piece_location_get_lt L hL ps init hinit face.axis
  cases hs : face.sign <;> simp [Nat.dist] <;> omega

/-- Reachability: a puzzle state obtained from a fresh solved state by a
sequence of twists. -/
def applyTwists (st : Rubiks4D) (ts : List Twist) : Rubiks4D :=
  ts.foldl Rubiks4D.twist st

/-- Validity of an orientation state: the four slots hold faces on pairwise
distinct axes. -/
def axesDistinct (ps : PieceState) : Prop :=
  ∀ i j : Axis, (ps.get i).axis = (ps.get j).axis → i = j

theorem axesDistinct_twist (ps : PieceState) (f : FaceEnum)
    (d : TwistDirectionEnum) (h : axesDistinct ps) : axesDistinct (ps.twist f d) := by
  intro i j hij
  rw [twist_eq_map, PieceState.map_get, PieceState.map_get] at hij
  exact h i j (twistFaceAction_axis_inj f d _ _ hij)

theorem axesDistinct_step (L : Nat) (t : Twist) (ps : PieceState) (loc : Loc4)
    (h : axesDistinct ps) : axesDistinct (pieceTwistStep L t ps loc) := by
  unfold pieceTwistStep
  split
  · exact axesDistinct_twist ps t.axis t.direction h
  · exact h

theorem axesDistinct_twistPieces (L : Nat) (t : Twist) :
    ∀ (ss : List PieceState) (ls : List Loc4),
      (∀ ps ∈ ss, axesDistinct ps) →
      ∀ ps' ∈ twistPieces L t ss ls, axesDistinct ps' := by
  intro ss
  induction ss with
  | nil =>
    intro ls hss ps' h
    cases ls <;> simp [twistPieces] at h
  | cons ps ss ih =>
    intro ls hss ps' h
    cases ls with
    | nil =>
      rcases List.mem_cons.mp h with he | h
      · subst he
        exact axesDistinct_step L t ps ⟨0, 0, 0, 0⟩ (hss ps (List.mem_cons_self _ _))
      · exact ih [] (fun q hq => hss q (List.mem_cons_of_mem _ hq)) ps' h
    | cons loc ls =>
      rcases List.mem_cons.mp h with he | h
      · subst he
        exact axesDistinct_step L t ps loc (hss ps (List.mem_cons_self _ _))
      · exact ih ls (fun q hq => hss q (List.mem_cons_of_mem _ hq)) ps' h

theorem axesDistinct_applyTwists :
    ∀ (ts : List Twist) (st : Rubiks4D),
      (∀ ps ∈ st.piece_states, axesDistinct ps) →
      ∀ ps ∈ (applyTwists st ts).piece_states, axesDistinct ps := by
  intro ts
  induction ts with
  | nil => intro st h ps hmem; exact h ps hmem
  | cons t ts ih =>
    intro st h ps hmem
    refine ih (st.twist t) ?_ ps hmem
    intro q hq
    exact axesDistinct_twistPieces _ t _ _ h q hq

theorem axesDistinct_init : axesDistinct PieceState.init := by
  unfold axesDistinct
  decide

theorem wCount_formula :
    ∀ n : Nat, n < 10 → 1 ≤ n →
      (wCount n : Int) = (n : Int) ^ 4 - (max ((n : Int) - 2) 0) ^ 4 := by decide

/-- C1: for every puzzle state (in particular every reachable one) and every
twist, applying the twist and then its reverse (same axis and layer mask,
direction reversed via `reverse_twist_direction`) returns exactly the
original state. -/
theorem C1_twist_then_reverse (st : Rubiks4D) (t : Twist) :
    (st.twist t).twist t.rev = st :=
  Rubiks4D.state_twist_then_rev st t

/-- C2: starting from the default orientation `[R, U, F, O]` on every piece
and applying any sequence of twists, every piece orientation stays a valid
signed permutation: slot axes are pairwise distinct, i.e. each of the four
axes appears in exactly one slot. -/
theorem C2_orientation_valid (n : Nat) (ts : List Twist) (ps : PieceState)
    (hmem : ps ∈ (applyTwists (Rubiks4D.new n) ts).piece_states) :
    (∀ i j : Axis, i ≠ j → (ps.get i).axis ≠ (ps.get j).axis) ∧
    (∀ a : Axis, ∃! i : Axis, (ps.get i).axis = a) := by
  have hd : axesDistinct ps := by
    refine axesDistinct_applyTwists ts (Rubiks4D.new n) ?_ ps hmem
    intro q hq
    have : q = PieceState.init := List.eq_of_mem_replicate hq
    rw [this]
    exact axesDistinct_init
  constructor
  · intro i j hne he
    exact hne (hd i j he)
  · intro a
    have hinj : Function.Injective (fun i : Axis => (ps.get i).axis) :=
      fun i j hij => hd i j hij
    have hsurj : Function.Surjective (fun i : Axis => (ps.get i).axis) :=
      Finite.surjective_of_injective hinj
    rcases hsurj a with ⟨i, hi⟩
    exact ⟨i, hi, fun j hj => hd j i (hj.trans hi.symm)⟩

theorem C2_witness :
    (PieceState.init ∈ (applyTwists (Rubiks4D.new 1) []).piece_states) ∧
    ((∀ i j : Axis, i ≠ j → (PieceState.init.get i).axis ≠ (PieceState.init.get j).axis) ∧
     (∀ a : Axis, ∃! i : Axis, (PieceState.init.get i).axis = a)) :=
  ⟨by decide, C2_orientation_valid 1 [] PieceState.init (by decide)⟩

/-- C3: for every layer count in the valid range 1 to 9, the generated
description has exactly `n^4 - max(n-2,0)^4` pieces. -/
theorem C3_piece_count (n : Nat) (h1 : 1 ≤ n) (h9 : n ≤ 9) :
    ((puzzle_description n).pieces.length : Int)
      = (n : Int) ^ 4 - (max ((n : Int) - 2) 0) ^ 4 := by
  rw [puzzle_description_pieces_length]
  exact wCount_formula n (by omega) h1

theorem C3_witness :
    1 ≤ 3 ∧ 3 ≤ 9 ∧
    ((puzzle_description 3).pieces.length : Int)
      = (3 : Int) ^ 4 - (max ((3 : Int) - 2) 0) ^ 4 :=
  ⟨by decide, by decide, C3_piece_count 3 (by decide) (by decide)⟩

/-- C4: the primitive rotation generator applied four times to any
orientation state over distinct axes is the identity, and any 120-degree
corner twist direction (period 3) applied three times is the identity. -/
theorem C4_generator_periods :
    (∀ (s : PieceState) (a b : Axis), a ≠ b →
        (((s.rotate a b).rotate a b).rotate a b).rotate a b = s) ∧
    (∀ (s : PieceState) (f : FaceEnum) (d : TwistDirectionEnum), d.period = 3 →
        ((s.twist f d).twist f d).twist f d = s) := by
  constructor
  · intro s a b hab
    have h4 := fun x => rotSlot_four a b x hab
    rw [rotate_eq_map, rotate_eq_map, rotate_eq_map, rotate_eq_map]
    cases s
    simp [PieceState.map, h4]
  · intro s f d hd
    have h3 := fun x => twistFaceAction_corner_three f d x hd
    rw [twist_eq_map, twist_eq_map, twist_eq_map]
    cases s
    simp [PieceState.map, h3]

theorem C4_witness :
    (Axis.X ≠ Axis.Y ∧
      ((((PieceState.init.rotate .X .Y).rotate .X .Y).rotate .X .Y).rotate .X .Y
        = PieceState.init)) ∧
    (TwistDirectionEnum.UFR.period = 3 ∧
      (((PieceState.init.twist .R .UFR).twist .R .UFR).twist .R .UFR
        = PieceState.init)) :=
  ⟨⟨by decide, C4_generator_periods.1 PieceState.init .X .Y (by decide)⟩,
   ⟨by decide, C4_generator_periods.2 PieceState.init .R .UFR (by decide)⟩⟩

/-- C9: on any puzzle state built over a generated description with layer
count at least 1 (in particular every reachable state), the layer number
computed by `layer_from_twist_axis` is strictly below the layer count, for
every piece index and twist axis. -/
theorem C9_layer_within_bounds (n : Nat) (h1 : 1 ≤ n)
    (states : List PieceState) (p : Nat) (ax : FaceEnum) :
    Rubiks4D.layer_from_twist_axis ⟨puzzle_description n, states⟩ ax p < n := by
  unfold Rubiks4D.layer_from_twist_axis
  apply layerOf_lt _ h1
  intro a
  by_cases hp : p < (puzzle_description n).piece_locations.length
  · have hmem : (puzzle_description n).piece_locations.getD p ⟨0, 0, 0, 0⟩
        ∈ (puzzle_description n).piece_locations := by
      rw [List.getD_eq_getElem _ _ hp]
      exact List.getElem_mem hp
    exact puzzle_description_locs_lt n h1 _ hmem a
  · rw [List.getD_eq_default _ _ (Nat.le_of_not_lt hp)]
    cases a <;> simpa [Loc4.get] using h1

theorem C9_witness :
    1 ≤ 3 ∧
    Rubiks4D.layer_from_twist_axis ⟨puzzle_description 3, []⟩ FaceEnum.R 0 < 3 :=
  ⟨by decide, C9_layer_within_bounds 3 (by decide) [] 0 FaceEnum.R⟩


/-- Scramble progress marker (`enum ScrambleState` in `controller.rs`). -/
inductive ScrambleState where
  | None : ScrambleState
  | Partial : ScrambleState
  | Full : ScrambleState
  | Solved : ScrambleState
deriving DecidableEq, Repr

/-- Animation and history controller (`struct PuzzleController`).  The undo
and redo buffers are Rust `Vec`s pushed and popped at the end, modelled as
lists whose last element is the top; the `f32` animation progress is modelled
as a rational (it is only stored and reset in the embedded operations). -/
structure PuzzleController where
  displayed : Rubiks4D
  latest : Rubiks4D
  twist_queue : List Twist
  queue_max : Nat
  progress : Rat
  is_unsaved : Bool
  scramble_state : ScrambleState
  scramble : List Twist
  undo_buffer : List Twist
  redo_buffer : List Twist
deriving DecidableEq, Repr

/-- Fresh controller over a solved puzzle (`PuzzleController::new`). -/
def PuzzleController.new (layer_count : Nat) : PuzzleController :=
  { displayed := Rubiks4D.new layer_count
  , latest := Rubiks4D.new layer_count
  , twist_queue := []
  , queue_max := 0
  , progress := 0
  , is_unsaved := false
  , scramble_state := ScrambleState.None
  , scramble := []
  , undo_buffer := []
  , redo_buffer := [] }

/-- Puzzle type of a controller (`PuzzleController::ty`): the type of its
latest state. -/
def PuzzleController.ty (c : PuzzleController) : Nat := c.latest.ty

/-- Undo one twist (`PuzzleController::undo`): pop the undo stack, apply the
reversed twist to `latest`, enqueue it for animation, and push the original
twist onto the redo stack; error when there is nothing to undo. -/
def PuzzleController.undo (c : PuzzleController) : Except String PuzzleController :=
  match c.undo_buffer.getLast? with
  | some t =>
    Except.ok { c with
      is_unsaved := true
      latest := c.latest.twist t.rev
      twist_queue := c.twist_queue ++ [t.rev]
      undo_buffer := c.undo_buffer.dropLast
      redo_buffer := c.redo_buffer ++ [t] }
  | none => Except.error ("Nothing to undo")

/-- Redo one twist (`PuzzleController::redo`): pop the redo stack, apply the
twist to `latest`, enqueue it for animation, and push it onto the undo stack;
error when there is nothing to redo. -/
def PuzzleController.redo (c : PuzzleController) : Except String PuzzleController :=
  match c.redo_buffer.getLast? with
  | some t =>
    Except.ok { c with
      is_unsaved := true
      latest := c.latest.twist t
      twist_queue := c.twist_queue ++ [t]
      undo_buffer := c.undo_buffer ++ [t]
      redo_buffer := c.redo_buffer.dropLast }
  | none => Except.error ("Nothing to redo")

/-- Issue a twist (`PuzzleController::twist`): reject a twist whose puzzle
type differs from the controller's; otherwise mark unsaved, clear the redo
stack, and either auto-merge (when the new twist equals the reverse of the
most recently undo-recorded twist, perform `undo()` instead) or apply the
twist to `latest`, enqueue it, and push it onto the undo stack. -/
def PuzzleController.twist (c : PuzzleController) (t : Twist) :
    Except String PuzzleController :=
  if t.ty ≠ c.ty then Except.error ("puzzle type mismatch")
  else
    let c1 := { c with is_unsaved := true, redo_buffer := ([] : List Twist) }
    if c1.undo_buffer.getLast? = some t.rev then c1.undo
    else
      Except.ok { c1 with
        latest := c1.latest.twist t
        twist_queue := c1.twist_queue ++ [t]
        undo_buffer := c1.undo_buffer ++ [t] }

/-- Puzzle state equality (`impl PartialEq for Rubiks4D`): two states compare
equal exactly when their piece orientation arrays match. -/
def Rubiks4D.eqv (a b : Rubiks4D) : Bool := decide (a.piece_states = b.piece_states)

/-- Controller equality (`impl PartialEq for PuzzleController`): compares
only the `latest` puzzle states. -/
def PuzzleController.eqv (c d : PuzzleController) : Bool := c.latest.eqv d.latest

/-- Modelled from the spec: the layer mask covering all layers of the puzzle
(the `all_layers` helper of the missing `PuzzleType` trait): a bitset with
the `layer_count` low bits set. -/
def all_layers (layer_count : Nat) : Nat := 2 ^ layer_count - 1

/-- Whole-puzzle recentering twist (`make_recenter_twist` in
`rubiks_4d.rs`): map each of the six non-W faces to a fixed axis/direction
pair with a full layer mask; fail for the O and I faces. -/
def make_recenter_twist (layer_count : Nat) (axis : FaceEnum) : Except String Twist :=
  match axis with
  | .R => Except.ok ⟨layer_count, .U, .F, all_layers layer_count⟩
  | .L => Except.ok ⟨layer_count, .U, .B, all_layers layer_count⟩
  | .U => Except.ok ⟨layer_count, .R, .B, all_layers layer_count⟩
  | .D => Except.ok ⟨layer_count, .R, .F, all_layers layer_count⟩
  | .F => Except.ok ⟨layer_count, .R, .U, all_layers layer_count⟩
  | .B => Except.ok ⟨layer_count, .R, .D, all_layers layer_count⟩
  | .O => Except.error ("cannot recenter near face")
  | .I => Except.error ("cannot recenter far face")

theorem Rubiks4D.ty_twist (st : Rubiks4D) (t : Twist) : (st.twist t).ty = st.ty := rfl


theorem controller_twist_mismatch (c : PuzzleController) (t : Twist)
    (h : t.ty ≠ c.ty) :
    c.twist t = Except.error ("puzzle type mismatch") := by
  unfold PuzzleController.twist
  rw [if_pos h]

theorem controller_undo_pop (c : PuzzleController) (t : Twist)
    (h : c.undo_buffer.getLast? = some t) :
    c.undo = Except.ok { c with
      is_unsaved := true
      latest := c.latest.twist t.rev
      twist_queue := c.twist_queue ++ [t.rev]
      undo_buffer := c.undo_buffer.dropLast
      redo_buffer := c.redo_buffer ++ [t] } := by
  unfold PuzzleController.undo
  rw [h]

theorem controller_redo_pop (c : PuzzleController) (t : Twist)
    (h : c.redo_buffer.getLast? = some t) :
    c.redo = Except.ok { c with
      is_unsaved := true
      latest := c.latest.twist t
      twist_queue := c.twist_queue ++ [t]
      undo_buffer := c.undo_buffer ++ [t]
      redo_buffer := c.redo_buffer.dropLast } := by
  unfold PuzzleController.redo
  rw [h]

theorem controller_twist_merge (c : PuzzleController) (t : Twist)
    (h1 : t.ty = c.ty) (h2 : c.undo_buffer.getLast? = some t.rev) :
    c.twist t
      = ({ c with is_unsaved := true, redo_buffer := ([] : List Twist) }
          : PuzzleController).undo := by
  unfold PuzzleController.twist
  rw [if_neg (by simp [h1])]
  simp only []
  rw [if_pos h2]

theorem controller_twist_push (c : PuzzleController) (t : Twist)
    (h1 : t.ty = c.ty) (h2 : c.undo_buffer.getLast? ≠ some t.rev) :
    c.twist t = Except.ok { c with
      is_unsaved := true
      redo_buffer := ([] : List Twist)
      latest := c.latest.twist t
      twist_queue := c.twist_queue ++ [t]
      undo_buffer := c.undo_buffer ++ [t] } := by
  unfold PuzzleController.twist
  rw [if_neg (by simp [h1])]
  simp only []
  rw [if_neg h2]

/-- C6: issuing a twist through the controller fails with the type-mismatch
error exactly when the twist's originating puzzle type differs from the
controller's; a twist of the matching type always succeeds. -/
theorem C6_twist_type_mismatch (c : PuzzleController) (t : Twist) :
    (c.twist t = Except.error ("puzzle type mismatch") ↔ t.ty ≠ c.ty) ∧
    (t.ty = c.ty → ∃ c', c.twist t = Except.ok c') := by
  by_cases hty : t.ty = c.ty
  · have hok : ∃ c', c.twist t = Except.ok c' := by
      by_cases hm : c.undo_buffer.getLast? = some t.rev
      · rw [controller_twist_merge c t hty hm]
        refine ⟨_, controller_undo_pop _ t.rev ?_⟩
        exact hm
      · exact ⟨_, controller_twist_push c t hty hm⟩
    rcases hok with ⟨c', hc'⟩
    constructor
    · rw [hc']
      constructor
      · intro h
        exact absurd h (by simp)
      · intro h
        exact absurd hty h
    · intro _
      exact ⟨c', hc'⟩
  · constructor
    · rw [controller_twist_mismatch c t hty]
      simp [hty]
    · intro h
      exact absurd h hty

/-- C7: a non-merged twist followed by `undo()` restores `latest` to its
pre-twist value, and `redo()` right after that restores it to its
post-twist value. -/
theorem C7_undo_redo_roundtrip (c : PuzzleController) (t : Twist)
    (hty : t.ty = c.ty) (hmerge : c.undo_buffer.getLast? ≠ some t.rev) :
    ∃ c1 c2 c3,
      c.twist t = Except.ok c1 ∧
      c1.undo = Except.ok c2 ∧ c2.latest = c.latest ∧
      c2.redo = Except.ok c3 ∧ c3.latest = c1.latest := by
  refine ⟨_, _, _, controller_twist_push c t hty hmerge,
    controller_undo_pop _ t (by simp [List.getLast?_concat]), ?_,
    controller_redo_pop _ t (by simp), ?_⟩
  · simp [Rubiks4D.state_twist_then_rev]
  · simp [Rubiks4D.state_twist_then_rev]

theorem C7_witness :
    ((⟨1, .R, .R, 1⟩ : Twist).ty = (PuzzleController.new 1).ty) ∧
    ((PuzzleController.new 1).undo_buffer.getLast?
        ≠ some (Twist.rev ⟨1, .R, .R, 1⟩)) ∧
    (∃ c1 c2 c3,
      (PuzzleController.new 1).twist ⟨1, .R, .R, 1⟩ = Except.ok c1 ∧
      c1.undo = Except.ok c2 ∧ c2.latest = (PuzzleController.new 1).latest ∧
      c2.redo = Except.ok c3 ∧ c3.latest = c1.latest) :=
  ⟨by decide, by decide,
    C7_undo_redo_roundtrip (PuzzleController.new 1) ⟨1, .R, .R, 1⟩
      (by decide) (by decide)⟩

/-- C5 counterexample: starting from a fresh controller, issuing a twist and
then its reverse takes the auto-merge path, but the redo stack afterwards
holds the first twist instead of its empty pre-call value. -/
theorem C5_counterexample :
    ((((PuzzleController.new 1).twist ⟨1, .R, .R, 1⟩).bind
        (fun c => c.twist (Twist.rev ⟨1, .R, .R, 1⟩))).map
        (fun c => c.redo_buffer)
      = Except.ok [⟨1, .R, .R, 1⟩]) ∧
    (PuzzleController.new 1).redo_buffer = ([] : List Twist) ∧
    ([(⟨1, .R, .R, 1⟩ : Twist)] ≠ ([] : List Twist)) := by
  refine ⟨rfl, rfl, by simp⟩

/-- C5 amended: issuing `twist(t)` (non-merged) and then `twist(reverse(t))`
auto-merges via `undo()`: `latest` and the undo stack return to their values
before the first call, but the redo stack ends as `[t]` (the first call
clears it and the merged undo pushes `t`), not its pre-call value. -/
theorem C5_twist_then_reverse_merge (c : PuzzleController) (t : Twist)
    (hty : t.ty = c.ty) (hmerge : c.undo_buffer.getLast? ≠ some t.rev) :
    ∃ c1 c2,
      c.twist t = Except.ok c1 ∧
      c1.twist t.rev = Except.ok c2 ∧
      c2.latest = c.latest ∧
      c2.undo_buffer = c.undo_buffer ∧
      c2.redo_buffer = [t] := by
  refine ⟨_, _, controller_twist_push c t hty hmerge,
    (controller_twist_merge _ t.rev
        (by simpa [PuzzleController.ty, Rubiks4D.ty, Twist.rev, Rubiks4D.twist] using hty)
        (by simp [List.getLast?_concat, Twist.rev_rev])).trans
      (controller_undo_pop _ t (by simp [List.getLast?_concat])),
    ?_, ?_, ?_⟩
  · simp [Rubiks4D.state_twist_then_rev]
  · simp [List.dropLast_concat]
  · simp

theorem C5_witness :
    ∃ c1 c2,
      (PuzzleController.new 1).twist ⟨1, .R, .R, 1⟩ = Except.ok c1 ∧
      c1.twist (Twist.rev ⟨1, .R, .R, 1⟩) = Except.ok c2 ∧
      c2.latest = (PuzzleController.new 1).latest ∧
      c2.undo_buffer = (PuzzleController.new 1).undo_buffer ∧
      c2.redo_buffer = [⟨1, .R, .R, 1⟩] :=
  C5_twist_then_reverse_merge (PuzzleController.new 1) ⟨1, .R, .R, 1⟩
    (by decide) (by decide)

theorem C6_witness :
    ∃ c', (PuzzleController.new 1).twist ⟨1, .R, .R, 1⟩ = Except.ok c' :=
  (C6_twist_type_mismatch (PuzzleController.new 1) ⟨1, .R, .R, 1⟩).2 (by decide)

/-- C8: recentering fails exactly for the two faces on the W axis, and for
the other six faces succeeds with a twist whose layer mask covers all layers
of the puzzle. -/
theorem C8_recenter (n : Nat) (axis : FaceEnum) :
    ((∃ e, make_recenter_twist n axis = Except.error e) ↔ axis.axis = Axis.W) ∧
    (∀ t, make_recenter_twist n axis = Except.ok t →
        t.layers = all_layers n ∧ ∀ l, l < n → t.layers.testBit l = true) := by
  constructor
  · cases axis <;> simp [make_recenter_twist, FaceEnum.axis]
  · intro t ht
    have hl : t.layers = all_layers n := by
      cases axis <;> simp [make_recenter_twist] at ht <;> rw [← ht]
    refine ⟨hl, ?_⟩
    intro l hln
    rw [hl]
    unfold all_layers
    rw [Nat.testBit_two_pow_sub_one]
    simp [hln]

theorem C8_witness :
    ((⟨3, .U, .F, all_layers 3⟩ : Twist).layers = all_layers 3) ∧
    (1 < 3 ∧ (⟨3, .U, .F, all_layers 3⟩ : Twist).layers.testBit 1 = true) := by
  have h := (C8_recenter 3 FaceEnum.R).2 ⟨3, .U, .F, all_layers 3⟩ rfl
  exact ⟨h.1, by decide, h.2 1 (by decide)⟩

/-- C10: controller equality compares only the `latest` puzzle state (itself
compared by piece orientation arrays), regardless of the displayed state, the
twist queue, the recorded maximum queue length, the animation progress, the
unsaved flag, the scramble data, and the undo and redo stacks. -/
theorem C10_controller_eq
    (d1 d2 l1 l2 : Rubiks4D) (q1 q2 : List Twist) (m1 m2 : Nat) (p1 p2 : Rat)
    (u1 u2 : Bool) (sc1 sc2 : ScrambleState) (s1 s2 ub1 ub2 rb1 rb2 : List Twist) :
    PuzzleController.eqv ⟨d1, l1, q1, m1, p1, u1, sc1, s1, ub1, rb1⟩
        ⟨d2, l2, q2, m2, p2, u2, sc2, s2, ub2, rb2⟩ = true
      ↔ l1.piece_states = l2.piece_states := by
  simp [PuzzleController.eqv, Rubiks4D.eqv]

end HSC
